import Mathlib

/-!
Shallow embedding of `pexpert/ppc/pe_clock_speed.c` from the xnu PowerPC
platform expert, together with proofs about the calibration engine it
implements (`pe_do_clock_test` and `PE_Determine_Clock_Speeds`).

The file is compiled for 32-bit PowerPC: `int` and `long` are 32 bits and
`unsigned long long` is 64 bits.  Signed `long` arithmetic is modelled by
`Int` (signed overflow is undefined behaviour in C, and the executions
considered here stay in range); `unsigned long long` arithmetic is modelled
by `Nat` reduced modulo `2 ^ 64`, since unsigned overflow wraps around.
The assembly sampling routine `pe_run_clock_test` is an external
collaborator; it is modelled as a stream `Nat → RawSample` giving the
measurement observed by each retry iteration.
-/

namespace ClockSpeed

/-- Threshold for bus speed matches: the `kMaxFreqDiff` macro (30000). -/
def kMaxFreqDiff : Int := 30000

/-- One raw measurement delivered by `pe_run_clock_test`: the `via_ticks`
and `dec_ticks` fields of `struct clock_test_data` (both `unsigned int`). -/
structure RawSample where
  via_ticks : Nat
  dec_ticks : Nat
deriving DecidableEq

/-- The engine's working state: the file-scope globals `bus_freq_num`,
`bus_freq_den` and `cpu_pll` (all C `long`). -/
structure EngineState where
  bus_freq_num : Int
  bus_freq_den : Int
  cpu_pll : Int
deriving DecidableEq

/-- Truncation of an unsigned 64-bit value to a 32-bit signed `long`
(two's-complement wrap, as on PowerPC). -/
def toLong (n : Nat) : Int :=
  if n % 4294967296 < 2147483648 then ((n % 4294967296 : Nat) : Int)
  else ((n % 4294967296 : Nat) : Int) - 4294967296

/-- The pll mode computed from a sample: `cpu_pll = 10000000 / dec_ticks;
cpu_pll = (cpu_pll / 2) + (cpu_pll & 1);`.  The first division is carried
out in `unsigned int`, and the value stays nonnegative throughout. -/
def pllOf (dec_ticks : Nat) : Nat :=
  let p := 10000000 / dec_ticks
  p / 2 + (p &&& 1)

/-- The raw bus speed computed from a sample:
`raw_bus_freq = ((0xBF401675E5DULL * dec_ticks) / via_ticks) >> 22;`.
The multiply, divide and shift happen in `unsigned long long` (wrapping
modulo `2 ^ 64`) and the result is stored into a `long`. -/
def rawBusFreqOf (s : RawSample) : Int :=
  toLong ((0xBF401675E5D * s.dec_ticks % 18446744073709551616 / s.via_ticks) >>> 22)

/-- The candidate-table scan: entries `(bus_freq_num, bus_freq_den)` are
tried in order; `diff = bus_freq_num - raw_bus_freq * bus_freq_den` is made
nonnegative, and the first entry with `diff < kMaxFreqDiff * bus_freq_den`
is accepted. -/
def findMatch (raw : Int) : List (Int × Int) → Option (Int × Int)
  | [] => none
  | (n, d) :: rest =>
    let diff := n - raw * d
    let diff := if diff < 0 then -diff else diff
    if diff < kMaxFreqDiff * d then some (n, d) else findMatch raw rest

/-- Fallback tier 1 rounding: `((raw_bus_freq + 250000) / 500000) * 500000`
(truncating `long` division). -/
def tier1Snap (raw : Int) : Int := (raw + 250000).tdiv 500000 * 500000

/-- Fallback tier 2 rounding:
`((raw_bus_freq * 3 + 25000000) / 50000000) * 50000000`. -/
def tier2Snap (raw : Int) : Int := (raw * 3 + 25000000).tdiv 50000000 * 50000000

/-- The three fallback tiers, reached when no table entry is accepted:
snap to a multiple of 0.5 MHz, then to a multiple of 50/3 MHz, then return
the raw bus speed unchanged. -/
def fallbackCascade (raw : Int) : Int × Int :=
  let tmp1 := tier1Snap raw
  let diff1 := tmp1 - raw
  let diff1 := if diff1 < 0 then -diff1 else diff1
  if diff1 < kMaxFreqDiff then (tmp1, 1)
  else
    let tmp2 := tier2Snap raw
    let diff2 := tmp2 - raw * 3
    let diff2 := if diff2 < 0 then -diff2 else diff2
    if diff2 < kMaxFreqDiff * 3 then (tmp2, 3)
    else (raw, 1)

/-- One full pass of the matching cascade: the `(bus_freq_num, bus_freq_den)`
pair accepted by a single retry iteration for a given raw bus speed. -/
def matchBusFreq (table : List (Int × Int)) (raw : Int) : Int × Int :=
  match findMatch raw table with
  | some e => e
  | none => fallbackCascade raw

/-- One retry iteration of `pe_do_clock_test` as a function of that
iteration's raw sample: the pll mode, the raw bus speed, and the accepted
numerator/denominator. -/
def iterEstimate (table : List (Int × Int)) (s : RawSample) : EngineState :=
  let pll := pllOf s.dec_ticks
  let raw := rawBusFreqOf s
  let nd := matchBusFreq table raw
  { bus_freq_num := nd.1, bus_freq_den := nd.2, cpu_pll := (pll : Int) }

/-- Result of the retry loop: the final globals, the number of loop
iterations executed (equivalently, samples taken), and the final value of
the local `last_bus_freq`. -/
structure LoopResult where
  state : EngineState
  iterations : Nat
  lastNum : Int
deriving DecidableEq

/-- The do/while retry loop.  The C condition is
`(bus_freq_num != last_bus_freq) && tries--`: only the numerator is
compared, and `tries--` tests the old value against zero, so with
`tries = 10` the body can run up to 11 times.  The `tries = 0` clause is the
final pass, after which the loop exits unconditionally. -/
def clockTestLoop (table : List (Int × Int)) (samples : Nat → RawSample) :
    Nat → Int → Nat → LoopResult
  | idx, last, 0 =>
    { state := iterEstimate table (samples idx), iterations := 1, lastNum := last }
  | idx, last, tries + 1 =>
    let st := iterEstimate table (samples idx)
    if st.bus_freq_num = last then
      { state := st, iterations := 1, lastNum := last }
    else
      let r := clockTestLoop table samples (idx + 1) st.bus_freq_num tries
      { state := r.state, iterations := r.iterations + 1, lastNum := r.lastNum }

/-- `pe_do_clock_test`: the globals start with `bus_freq_num = 0` and the
local retry budget is `tries = 10`. -/
def pe_do_clock_test (table : List (Int × Int)) (samples : Nat → RawSample) : LoopResult :=
  clockTestLoop table samples 0 0 10

/-- The `gPEClockFrequencyInfo` fields written by
`PE_Determine_Clock_Speeds` (all C `unsigned long`, 32 bits). -/
structure ClockFrequencyInfo where
  bus_clock_rate_num : Nat
  bus_clock_rate_den : Nat
  bus_to_cpu_rate_num : Nat
  bus_to_cpu_rate_den : Nat
  bus_to_dec_rate_num : Nat
  bus_to_dec_rate_den : Nat
  bus_clock_rate_hz : Nat
  cpu_clock_rate_hz : Nat
  dec_clock_rate_hz : Nat
deriving DecidableEq

/-- Conversion of a signed `long` value to `unsigned long` (wrap modulo
`2 ^ 32`). -/
def toU32 (i : Int) : Nat := (i % 4294967296).toNat

/-- Conversion of a signed `long` value to `unsigned long long` (wrap
modulo `2 ^ 64`). -/
def toU64 (i : Int) : Nat := (i % 18446744073709551616).toNat

/-- The publication step of `PE_Determine_Clock_Speeds`:
`tmp_bus_speed = bus_freq_num / bus_freq_den` (truncating `long` division,
stored in `unsigned long`),
`tmp = ((unsigned long long)bus_freq_num * cpu_pll) / (bus_freq_den * 2)`
(64-bit unsigned division, truncated to `unsigned long` when stored), and
the nine record fields, with the bus-to-decrementer ratio the constant
`1 / 4` and `dec_clock_rate_hz = tmp_bus_speed / 4`. -/
def publishInfo (st : EngineState) : ClockFrequencyInfo :=
  let tmp_bus_speed : Nat := toU32 (st.bus_freq_num.tdiv st.bus_freq_den)
  let tmp : Nat :=
    toU64 st.bus_freq_num * toU64 st.cpu_pll % 18446744073709551616 /
      toU64 (st.bus_freq_den * 2)
  { bus_clock_rate_num := toU32 st.bus_freq_num
    bus_clock_rate_den := toU32 st.bus_freq_den
    bus_to_cpu_rate_num := toU32 st.cpu_pll
    bus_to_cpu_rate_den := 2
    bus_to_dec_rate_num := 1
    bus_to_dec_rate_den := 4
    bus_clock_rate_hz := tmp_bus_speed
    cpu_clock_rate_hz := tmp % 4294967296
    dec_clock_rate_hz := tmp_bus_speed / 4 }

/-- `PE_Determine_Clock_Speeds`: run the retry loop, then derive and publish
the cleaned-up rates.  The interrupt mask window and the notification
callback do not affect the published record. -/
def PE_Determine_Clock_Speeds (table : List (Int × Int)) (samples : Nat → RawSample) :
    ClockFrequencyInfo :=
  publishInfo (pe_do_clock_test table samples).state

/-- The numerator accepted by retry iteration `i` (a pure function of the
iteration's own sample). -/
def estNumAt (table : List (Int × Int)) (samples : Nat → RawSample) (i : Nat) : Int :=
  (iterEstimate table (samples i)).bus_freq_num

/-- The value held by `last_bus_freq` when iteration `i` begins: 0 before
the first iteration, afterwards the numerator accepted by iteration
`i - 1`. -/
def prevNumAt (table : List (Int × Int)) (samples : Nat → RawSample) : Nat → Int
  | 0 => 0
  | i + 1 => estNumAt table samples i

/-- Number of additional iterations (beyond the one at index `idx`) that
the retry loop performs when entered at `idx` with `tries` retries left. -/
def stopSteps (table : List (Int × Int)) (samples : Nat → RawSample) : Nat → Nat → Nat
  | _, 0 => 0
  | idx, tries + 1 =>
    if estNumAt table samples idx = prevNumAt table samples idx then 0
    else stopSteps table samples (idx + 1) tries + 1

/-- Acceptance condition for a candidate-table entry `(num, den)`, as the
specification states it: the entry is within tolerance of the raw bus speed
exactly when `|num - raw * den| < kMaxFreqDiff * den`. -/
def entryMatches (raw : Int) (e : Int × Int) : Prop :=
  |e.1 - raw * e.2| < kMaxFreqDiff * e.2

instance (raw : Int) (e : Int × Int) : Decidable (entryMatches raw e) :=
  inferInstanceAs (Decidable (_ < _))

/-- Sample stream whose raw bus speed changes on every iteration
(`dec_ticks = 1`, `via_ticks = i + 1`): no two consecutive accepted
numerators are ever equal. -/
def driftSamples : Nat → RawSample := fun i => { via_ticks := i + 1, dec_ticks := 1 }

/-- Constant sample stream with `dec_ticks = 10 ^ 7` and `via_ticks = 5482`;
its raw bus speed is 99987335, within tolerance of 100 MHz. -/
def steadySamples : Nat → RawSample := fun _ => { via_ticks := 5482, dec_ticks := 10000000 }

/-- Sample stream whose first measurement has `via_ticks = 10964` (raw bus
speed 49993667) and whose later measurements have `via_ticks = 5482` (raw
bus speed 99987335). -/
def shiftSamples : Nat → RawSample := fun i =>
  if i = 0 then { via_ticks := 10964, dec_ticks := 10000000 }
  else { via_ticks := 5482, dec_ticks := 10000000 }

/-- Constant sample stream with `dec_ticks = 3 * 10 ^ 6` and
`via_ticks = 6043`; its raw bus speed is 99990703 and its pll mode is 2. -/
def fastSamples : Nat → RawSample := fun _ => { via_ticks := 6043, dec_ticks := 3000000 }

/-- Candidate table holding the single rational frequency 100 MHz / 1. -/
def exampleTable : List (Int × Int) := [(100000000, 1)]

/-- Candidate table holding the single rational frequency 200 MHz / 2. -/
def halfTable : List (Int × Int) := [(100000000, 2)]

/-- Rewriting of the C absolute-value idiom `if (diff < 0) diff = -diff;`. -/
theorem if_lt_zero_neg_eq_abs (d : Int) : (if d < 0 then -d else d) = |d| := by
  by_cases h : d < 0
  · simp [h, abs_of_neg h]
  · simp [h, abs_of_nonneg (not_lt.mp h)]

/-- Unfolding of the table scan on a cons cell in terms of `entryMatches`. -/
theorem findMatch_cons (raw n d : Int) (rest : List (Int × Int)) :
    findMatch raw ((n, d) :: rest) =
      if entryMatches raw (n, d) then some (n, d) else findMatch raw rest := by
  simp only [findMatch, entryMatches, if_lt_zero_neg_eq_abs]

/-- The table scan finds nothing when no entry is within tolerance. -/
theorem findMatch_eq_none (raw : Int) :
    ∀ table : List (Int × Int), (∀ e ∈ table, ¬ entryMatches raw e) →
      findMatch raw table = none := by
  intro table
  induction table with
  | nil => intro _; rfl
  | cons e rest ih =>
    intro h
    obtain ⟨n, d⟩ := e
    rw [findMatch_cons, if_neg (h (n, d) (List.mem_cons_self _ _))]
    exact ih fun x hx => h x (List.mem_cons_of_mem _ hx)

/-- Characterization of the retry loop: entered at index `idx` with the
correct `last_bus_freq` value and `tries` retries left, it performs
`stopSteps table samples idx tries` further iterations, ends in the state
computed by the final iteration, and reports the previous iteration's
numerator as `lastNum`. -/
theorem clockTestLoop_spec (table : List (Int × Int)) (samples : Nat → RawSample) :
    ∀ tries idx : Nat,
      clockTestLoop table samples idx (prevNumAt table samples idx) tries =
        { state := iterEstimate table (samples (idx + stopSteps table samples idx tries)),
          iterations := stopSteps table samples idx tries + 1,
          lastNum := prevNumAt table samples (idx + stopSteps table samples idx tries) } := by
  intro tries
  induction tries with
  | zero =>
    intro idx
    simp [clockTestLoop, stopSteps]
  | succ t ih =>
    intro idx
    by_cases h : estNumAt table samples idx = prevNumAt table samples idx
    · simp only [clockTestLoop, stopSteps, estNumAt] at h ⊢
      rw [if_pos h, if_pos h]
      simp
    · simp only [clockTestLoop, stopSteps, estNumAt] at h ⊢
      rw [if_neg h, if_neg h]
      have hrec : (iterEstimate table (samples idx)).bus_freq_num =
          prevNumAt table samples (idx + 1) := rfl
      rw [hrec, ih (idx + 1)]
      have harith : idx + (stopSteps table samples (idx + 1) t + 1) =
          idx + 1 + stopSteps table samples (idx + 1) t := by omega
      simp [harith]

/-- The number of extra iterations never exceeds the remaining retries. -/
theorem stopSteps_le (table : List (Int × Int)) (samples : Nat → RawSample) :
    ∀ tries idx : Nat, stopSteps table samples idx tries ≤ tries := by
  intro tries
  induction tries with
  | zero => intro idx; simp [stopSteps]
  | succ t ih =>
    intro idx
    by_cases h : estNumAt table samples idx = prevNumAt table samples idx
    · simp [stopSteps, h]
    · simp only [stopSteps, if_neg h]
      have := ih (idx + 1)
      omega

/-- When the loop exits, either the exit iteration's numerator equals the
previous iteration's numerator, or the retry budget ran out. -/
theorem stopSteps_last_eq_or_budget (table : List (Int × Int)) (samples : Nat → RawSample) :
    ∀ tries idx : Nat,
      estNumAt table samples (idx + stopSteps table samples idx tries) =
        prevNumAt table samples (idx + stopSteps table samples idx tries) ∨
      stopSteps table samples idx tries = tries := by
  intro tries
  induction tries with
  | zero => intro idx; right; rfl
  | succ t ih =>
    intro idx
    by_cases h : estNumAt table samples idx = prevNumAt table samples idx
    · left; simp [stopSteps, h]
    · simp only [stopSteps, if_neg h]
      rcases ih (idx + 1) with heq | hbud
      · left
        have harith : idx + (stopSteps table samples (idx + 1) t + 1) =
            idx + 1 + stopSteps table samples (idx + 1) t := by omega
        rw [harith]
        exact heq
      · right; omega

/-- Before the exit iteration, consecutive numerators always differ. -/
theorem stopSteps_min (table : List (Int × Int)) (samples : Nat → RawSample) :
    ∀ tries idx k : Nat, k < stopSteps table samples idx tries →
      estNumAt table samples (idx + k) ≠ prevNumAt table samples (idx + k) := by
  intro tries
  induction tries with
  | zero => intro idx k h; simp [stopSteps] at h
  | succ t ih =>
    intro idx k h
    by_cases heq : estNumAt table samples idx = prevNumAt table samples idx
    · simp [stopSteps, heq] at h
    · simp only [stopSteps, if_neg heq] at h
      match k with
      | 0 => simpa using heq
      | k + 1 =>
        have harith : idx + (k + 1) = idx + 1 + k := by omega
        rw [harith]
        exact ih (idx + 1) k (by omega)

/-- Closed form of `pe_do_clock_test` in terms of the exit index
`stopSteps table samples 0 10`. -/
theorem pe_do_clock_test_eq (table : List (Int × Int)) (samples : Nat → RawSample) :
    pe_do_clock_test table samples =
      { state := iterEstimate table (samples (stopSteps table samples 0 10)),
        iterations := stopSteps table samples 0 10 + 1,
        lastNum := prevNumAt table samples (stopSteps table samples 0 10) } := by
  have h := clockTestLoop_spec table samples 10 0
  simpa [pe_do_clock_test, prevNumAt] using h

/-- C1 (counterexample): with table `[(100000000, 2)]` and the
`shiftSamples` stream, iteration 0 accepts `(100000000, 2)` and iteration 1
accepts `(100000000, 1)`; the consecutive (numerator, denominator) pairs
differ in the denominator, yet the loop stops after 2 of its up-to-11
iterations, because only the numerators are compared. -/
theorem c1_counterexample :
    (pe_do_clock_test halfTable shiftSamples).iterations = 2 ∧
    iterEstimate halfTable (shiftSamples 0) =
      { bus_freq_num := 100000000, bus_freq_den := 2, cpu_pll := 1 } ∧
    (pe_do_clock_test halfTable shiftSamples).state =
      { bus_freq_num := 100000000, bus_freq_den := 1, cpu_pll := 1 } := by
  decide

/-- C1 (amended): the retry loop's stopping decision on stability compares
only the accepted numerators: it stops early exactly when this iteration's
accepted numerator equals the previous iteration's accepted numerator
(`last_bus_freq`); the denominator is not compared.  Formally: on an early
stop (at most 10 iterations) the exit iteration's numerator equals the
previous one, consecutive numerators differ at every non-exit iteration,
and the final state and the compared `last_bus_freq` are those of the exit
iteration and of its predecessor. -/
theorem c1_numerator_only_convergence (table : List (Int × Int)) (samples : Nat → RawSample) :
    ((pe_do_clock_test table samples).iterations ≤ 10 →
      estNumAt table samples ((pe_do_clock_test table samples).iterations - 1) =
        prevNumAt table samples ((pe_do_clock_test table samples).iterations - 1)) ∧
    (∀ i : Nat, i + 1 < (pe_do_clock_test table samples).iterations →
      estNumAt table samples i ≠ prevNumAt table samples i) ∧
    (pe_do_clock_test table samples).state =
      iterEstimate table (samples ((pe_do_clock_test table samples).iterations - 1)) ∧
    (pe_do_clock_test table samples).lastNum =
      prevNumAt table samples ((pe_do_clock_test table samples).iterations - 1) := by
  rw [pe_do_clock_test_eq]
  refine ⟨?_, ?_, by simp, by simp⟩
  · intro hle
    have hle2 : stopSteps table samples 0 10 + 1 ≤ 10 := hle
    rcases stopSteps_last_eq_or_budget table samples 10 0 with heq | hbud
    · simpa using heq
    · exact absurd hbud (by omega)
  · intro i hi
    have hi2 : i + 1 < stopSteps table samples 0 10 + 1 := hi
    have := stopSteps_min table samples 10 0 i (by omega)
    simpa using this

/-- C1 (witness for the amended theorem): in the `shiftSamples` run the
loop stops early, and indeed the exit iteration's numerator equals the
previous iteration's. -/
theorem c1_witness :
    estNumAt halfTable shiftSamples ((pe_do_clock_test halfTable shiftSamples).iterations - 1) =
      prevNumAt halfTable shiftSamples
        ((pe_do_clock_test halfTable shiftSamples).iterations - 1) :=
  (c1_numerator_only_convergence halfTable shiftSamples).1 (by decide)

/-- C2 (counterexample): with an empty table and the `driftSamples` stream
(whose accepted numerator changes every iteration) the loop samples the
provider 11 times, not at most 10: `tries--` tests the pre-decrement value,
so `tries = 10` allows one initial pass plus 10 retries. -/
theorem c2_counterexample :
    (pe_do_clock_test ([] : List (Int × Int)) driftSamples).iterations = 11 ∧
    ¬ (pe_do_clock_test ([] : List (Int × Int)) driftSamples).iterations ≤ 10 := by
  decide

/-- C2 (amended): for every candidate table and every sample stream,
including streams that never produce consecutive equal numerators, the
retry loop executes at most 11 iterations (the initial attempt plus the
10-retry budget) before terminating. -/
theorem c2_iteration_bound (table : List (Int × Int)) (samples : Nat → RawSample) :
    (pe_do_clock_test table samples).iterations ≤ 11 := by
  rw [pe_do_clock_test_eq]
  show stopSteps table samples 0 10 + 1 ≤ 11
  have := stopSteps_le table samples 10 0
  omega

/-- C3: whenever some candidate-table entry is within tolerance of the raw
bus speed — entry `(num, den)` is within tolerance iff
`|num - raw * den| < kMaxFreqDiff * den` — the matching cascade returns the
FIRST such entry in table order (earlier entries win), and the fallback
tiers are skipped (the result is that table entry itself). -/
theorem c3_first_matching_entry (raw : Int) :
    ∀ (table : List (Int × Int)) (i : Nat) (hi : i < table.length),
      entryMatches raw (table.get ⟨i, hi⟩) →
      (∀ (j : Nat) (hj : j < i), ¬ entryMatches raw (table.get ⟨j, Nat.lt_trans hj hi⟩)) →
      matchBusFreq table raw = table.get ⟨i, hi⟩ := by
  intro table
  induction table with
  | nil => intro i hi; exact absurd hi (Nat.not_lt_zero i)
  | cons e rest ih =>
    intro i hi hm hfirst
    obtain ⟨n, d⟩ := e
    match i with
    | 0 =>
      have hm0 : entryMatches raw (n, d) := hm
      simp only [matchBusFreq, findMatch_cons, if_pos hm0]
      rfl
    | i + 1 =>
      have hm0 : ¬ entryMatches raw (n, d) := hfirst 0 (Nat.succ_pos i)
      have hrest : matchBusFreq ((n, d) :: rest) raw = matchBusFreq rest raw := by
        simp only [matchBusFreq, findMatch_cons, if_neg hm0]
      rw [hrest]
      exact ih i (Nat.lt_of_succ_lt_succ hi) hm
        (fun j hj => hfirst (j + 1) (Nat.succ_lt_succ hj))

/-- C3 (witness): the raw bus speed 99987335 is within tolerance of the
table entry `(100000000, 1)`, so the cascade returns that entry. -/
theorem c3_witness :
    matchBusFreq exampleTable 99987335 = exampleTable.get ⟨0, by decide⟩ :=
  c3_first_matching_entry 99987335 exampleTable 0 (by decide) (by decide)
    (fun j hj => absurd hj (Nat.not_lt_zero j))

/-- C4: when no candidate-table entry is within tolerance but the
(nonnegative) raw bus speed is strictly less than `kMaxFreqDiff = 30000`
away from a multiple `m` of 500000 (necessarily its nearest such multiple,
since 30000 < 250000), the cascade accepts `(m, 1)` and the remaining
fallback tiers are skipped. -/
theorem c4_half_mhz_snap (table : List (Int × Int)) (raw m : Int)
    (h0 : 0 ≤ raw)
    (hno : ∀ e ∈ table, ¬ entryMatches raw e)
    (hmul : ∃ k : Int, m = 500000 * k)
    (hclose : |m - raw| < kMaxFreqDiff) :
    matchBusFreq table raw = (m, 1) := by
  obtain ⟨k, rfl⟩ := hmul
  have hfm : findMatch raw table = none := findMatch_eq_none raw table hno
  have hc : -30000 < 500000 * k - raw ∧ 500000 * k - raw < 30000 := by
    simpa [kMaxFreqDiff] using abs_lt.mp hclose
  have htd : (raw + 250000).tdiv 500000 = k := by
    rw [Int.tdiv_eq_ediv (by omega) (by omega)]
    omega
  have hsnap : tier1Snap raw = 500000 * k := by
    rw [tier1Snap, htd, mul_comm]
  simp only [matchBusFreq, hfm, fallbackCascade, if_lt_zero_neg_eq_abs, hsnap]
  rw [if_pos hclose]

/-- C4 (witness): with an empty table, raw bus speed 100012345 is 12345
away from the multiple `500000 * 200 = 100000000`, which tier 1 accepts
with denominator 1. -/
theorem c4_witness :
    matchBusFreq ([] : List (Int × Int)) 100012345 = (100000000, 1) :=
  c4_half_mhz_snap [] 100012345 100000000 (by decide) (by simp)
    ⟨200, by norm_num⟩ (by decide)

/-- C5: when neither the candidate table nor the half-MHz tier accepts a
(nonnegative) raw bus speed, then: if some multiple `50000000 * k` of
50 MHz is strictly within `kMaxFreqDiff * 3 = 90000` of `3 * raw` the
cascade accepts `(50000000 * k, 3)`, and if no such multiple exists it
accepts the passthrough `(raw, 1)` — so every iteration of the cascade ends
with some accepted frequency. -/
theorem c5_fifty_thirds_then_passthrough (table : List (Int × Int)) (raw : Int)
    (h0 : 0 ≤ raw)
    (hno : ∀ e ∈ table, ¬ entryMatches raw e)
    (h1 : kMaxFreqDiff ≤ |tier1Snap raw - raw|) :
    (∀ k : Int, |50000000 * k - 3 * raw| < kMaxFreqDiff * 3 →
      matchBusFreq table raw = (50000000 * k, 3)) ∧
    ((∀ k : Int, kMaxFreqDiff * 3 ≤ |50000000 * k - 3 * raw|) →
      matchBusFreq table raw = (raw, 1)) := by
  have hfm : findMatch raw table = none := findMatch_eq_none raw table hno
  have h1b : ¬ |tier1Snap raw - raw| < kMaxFreqDiff := not_lt.mpr h1
  constructor
  · intro k hk
    have hc : -90000 < 50000000 * k - 3 * raw ∧ 50000000 * k - 3 * raw < 90000 := by
      simpa [kMaxFreqDiff] using abs_lt.mp hk
    have htd : (raw * 3 + 25000000).tdiv 50000000 = k := by
      rw [Int.tdiv_eq_ediv (by omega) (by omega)]
      omega
    have hsnap : tier2Snap raw = 50000000 * k := by
      rw [tier2Snap, htd, mul_comm]
    have hcond : |tier2Snap raw - raw * 3| < kMaxFreqDiff * 3 := by
      rw [hsnap]
      have hrw : 50000000 * k - raw * 3 = 50000000 * k - 3 * raw := by ring
      rw [hrw]
      simpa [kMaxFreqDiff] using abs_lt.mpr hc
    simp only [matchBusFreq, hfm, fallbackCascade, if_lt_zero_neg_eq_abs, if_neg h1b, hsnap]
    rw [if_pos]
    rw [hsnap] at hcond
    exact hcond
  · intro hall
    have hq := hall ((raw * 3 + 25000000) / 50000000)
    have htd : (raw * 3 + 25000000).tdiv 50000000 = (raw * 3 + 25000000) / 50000000 :=
      Int.tdiv_eq_ediv (by omega) (by omega)
    have hcond : ¬ |tier2Snap raw - raw * 3| < kMaxFreqDiff * 3 := by
      rw [not_lt, tier2Snap, htd]
      have hrw : (raw * 3 + 25000000) / 50000000 * 50000000 - raw * 3 =
          50000000 * ((raw * 3 + 25000000) / 50000000) - 3 * raw := by ring
      rw [hrw]
      exact hq
    simp only [matchBusFreq, hfm, fallbackCascade, if_lt_zero_neg_eq_abs, if_neg h1b,
      if_neg hcond]

/-- C5 (witness): with an empty table, raw bus speed 16666666 is rejected
by tier 1 (166666 away from 16500000) and `3 * 16666666 = 49999998` is 2
away from `50000000 * 1`, which tier 2 accepts with denominator 3. -/
theorem c5_witness :
    matchBusFreq ([] : List (Int × Int)) 16666666 = (50000000 * 1, 3) :=
  (c5_fifty_thirds_then_passthrough [] 16666666 (by decide) (by simp) (by decide)).1
    1 (by decide)

/-- C6: for every calibration run, whatever tier produced the final
estimate, the published decrementer rate is exactly the published bus rate
divided by 4 (unsigned integer division), the published bus rate is the
final numerator divided by the final denominator (truncating integer
division, stored as `unsigned long`), and the published bus-to-decrementer
rational pair is the constant `(1, 4)`. -/
theorem c6_decrementer_quarter_rate (table : List (Int × Int)) (samples : Nat → RawSample) :
    (PE_Determine_Clock_Speeds table samples).dec_clock_rate_hz =
      (PE_Determine_Clock_Speeds table samples).bus_clock_rate_hz / 4 ∧
    (PE_Determine_Clock_Speeds table samples).bus_clock_rate_hz =
      toU32 ((pe_do_clock_test table samples).state.bus_freq_num.tdiv
        (pe_do_clock_test table samples).state.bus_freq_den) ∧
    (PE_Determine_Clock_Speeds table samples).bus_to_dec_rate_num = 1 ∧
    (PE_Determine_Clock_Speeds table samples).bus_to_dec_rate_den = 4 :=
  ⟨rfl, rfl, rfl, rfl⟩

/-- C7: if the retry budget is exhausted without two consecutive matching
numerators, the engine does not fail: the loop runs all 11 iterations and
`PE_Determine_Clock_Speeds` still publishes the record derived from the
final iteration's estimate, in the same output shape as a converged run. -/
theorem c7_budget_exhaustion_still_publishes (table : List (Int × Int))
    (samples : Nat → RawSample)
    (h : ∀ i : Nat, i < 11 → estNumAt table samples i ≠ prevNumAt table samples i) :
    (pe_do_clock_test table samples).iterations = 11 ∧
    PE_Determine_Clock_Speeds table samples =
      publishInfo (pe_do_clock_test table samples).state := by
  refine ⟨?_, rfl⟩
  rw [pe_do_clock_test_eq]
  show stopSteps table samples 0 10 + 1 = 11
  have hle := stopSteps_le table samples 10 0
  rcases stopSteps_last_eq_or_budget table samples 10 0 with heq | hbud
  · exact absurd heq (h (0 + stopSteps table samples 0 10) (by omega))
  · omega

/-- C7 (witness): the `driftSamples` stream never repeats a numerator, and
the run indeed takes 11 iterations and publishes the final estimate. -/
theorem c7_witness :
    (pe_do_clock_test ([] : List (Int × Int)) driftSamples).iterations = 11 ∧
    PE_Determine_Clock_Speeds ([] : List (Int × Int)) driftSamples =
      publishInfo (pe_do_clock_test ([] : List (Int × Int)) driftSamples).state :=
  c7_budget_exhaustion_still_publishes [] driftSamples (by decide)

/-- C8 (counterexample): calling the engine with an empty candidate table
is not fatal and is silently tolerated: with the `steadySamples` stream the
run completes and publishes a full record produced by fallback tier 1
alone. -/
theorem c8_counterexample :
    PE_Determine_Clock_Speeds ([] : List (Int × Int)) steadySamples =
      { bus_clock_rate_num := 100000000, bus_clock_rate_den := 1,
        bus_to_cpu_rate_num := 1, bus_to_cpu_rate_den := 2,
        bus_to_dec_rate_num := 1, bus_to_dec_rate_den := 4,
        bus_clock_rate_hz := 100000000, cpu_clock_rate_hz := 50000000,
        dec_clock_rate_hz := 25000000 } := by
  decide

/-- C8 (amended): an empty candidate table is silently tolerated: the table
scan never matches, every iteration's estimate comes from the fallback
cascade alone, and the engine publishes a result exactly as usual. -/
theorem c8_empty_table_tolerated (samples : Nat → RawSample) :
    (∀ raw : Int, findMatch raw [] = none) ∧
    (pe_do_clock_test ([] : List (Int × Int)) samples).state =
      { bus_freq_num := (fallbackCascade (rawBusFreqOf (samples
          ((pe_do_clock_test ([] : List (Int × Int)) samples).iterations - 1)))).1,
        bus_freq_den := (fallbackCascade (rawBusFreqOf (samples
          ((pe_do_clock_test ([] : List (Int × Int)) samples).iterations - 1)))).2,
        cpu_pll := (pllOf (samples
          ((pe_do_clock_test ([] : List (Int × Int)) samples).iterations - 1)).dec_ticks :
            Int) } ∧
    PE_Determine_Clock_Speeds ([] : List (Int × Int)) samples =
      publishInfo (pe_do_clock_test ([] : List (Int × Int)) samples).state := by
  refine ⟨fun _ => rfl, ?_, rfl⟩
  rw [pe_do_clock_test_eq]
  simp only [Nat.add_sub_cancel]
  rfl

/-- C9 (counterexample): with `dec_ticks = 10 ^ 7`, `via_ticks = 5482`
(raw bus speed 99987335, within tolerance of 100 MHz) and candidate table
`[(100000000, 1)]`, the engine does NOT converge in one iteration: the
first comparison is against the initial `last_bus_freq = 0`, so a second,
confirming iteration is always required. -/
theorem c9_counterexample :
    ¬ (pe_do_clock_test exampleTable steadySamples).iterations = 1 := by
  decide

/-- C9 (amended): on that same input the engine converges at the second
iteration (the second confirming the first) and publishes
`bus_clock_rate_hz = 100000000` and `dec_clock_rate_hz = 25000000`. -/
theorem c9_example_run :
    (pe_do_clock_test exampleTable steadySamples).iterations = 2 ∧
    (pe_do_clock_test exampleTable steadySamples).state.bus_freq_num =
      (pe_do_clock_test exampleTable steadySamples).lastNum ∧
    (PE_Determine_Clock_Speeds exampleTable steadySamples).bus_clock_rate_hz = 100000000 ∧
    (PE_Determine_Clock_Speeds exampleTable steadySamples).dec_clock_rate_hz = 25000000 := by
  decide

/-- C10: the published record — in particular the bus-to-cpu multiplier and
the cpu clock rate — is a function of the final loop iteration's sample
only (the convergence check never compares the multiplier), and two runs
that stabilize on the same bus numerator publish different cpu rates when
their last samples' decrementer tick counts differ: the `steadySamples` and
`fastSamples` runs both publish bus numerator 100000000, but cpu rates
50000000 and 100000000 respectively. -/
theorem c10_cpu_rate_from_final_sample :
    (∀ (table : List (Int × Int)) (samples : Nat → RawSample),
      PE_Determine_Clock_Speeds table samples =
        publishInfo (iterEstimate table
          (samples ((pe_do_clock_test table samples).iterations - 1))) ∧
      (pe_do_clock_test table samples).state.cpu_pll =
        (pllOf (samples
          ((pe_do_clock_test table samples).iterations - 1)).dec_ticks : Int)) ∧
    (pe_do_clock_test exampleTable steadySamples).state.bus_freq_num = 100000000 ∧
    (pe_do_clock_test exampleTable fastSamples).state.bus_freq_num = 100000000 ∧
    (steadySamples ((pe_do_clock_test exampleTable steadySamples).iterations - 1)).dec_ticks =
      10000000 ∧
    (fastSamples ((pe_do_clock_test exampleTable fastSamples).iterations - 1)).dec_ticks =
      3000000 ∧
    (PE_Determine_Clock_Speeds exampleTable steadySamples).cpu_clock_rate_hz = 50000000 ∧
    (PE_Determine_Clock_Speeds exampleTable fastSamples).cpu_clock_rate_hz = 100000000 := by
  constructor
  · intro table samples
    have h := pe_do_clock_test_eq table samples
    constructor
    · show publishInfo (pe_do_clock_test table samples).state = _
      rw [h]
      simp
    · rw [h]
      simp [iterEstimate]
  · decide

end ClockSpeed
